import Mathlib

/-!
Verification of the scoring/profiling engine of the Lifepath360 backend
(`backend/diagnostic/learning_style_analyzer.py`), shallowly embedded in Lean.

Python dicts with string keys are modelled as insertion-ordered association
lists, Python floats as rationals, and the Django data access layer as an
explicit in-memory database record.  The engine itself
(`LearningStyleAnalyzer`) is a pure computation over that data.
-/

namespace Lifepath

/-- Scores (Python floats) are modelled as rationals. -/
abbrev Score := ℚ

/-- A Python dict from trait name to score, as an insertion-ordered
association list (keys unique by construction, first binding wins). -/
abbrev ScoreMap := List (String × Score)

/-- Value of a trait, defaulting to 0 when absent (the `defaultdict(float)`
default, and the "absent traits contribute 0" reading). -/
def lookup0 (m : ScoreMap) (k : String) : Score :=
  (m.lookup k).getD 0

/-- Python's `max` over the values of a dict; only ever applied to a
non-empty collection (the `[]` case is unreachable in the source). -/
def listMax : List ℚ → ℚ
  | [] => 0
  | x :: xs => xs.foldl max x

/-- Python 3 `round` to an integer: round half to even. -/
def roundHalfEven (x : ℚ) : ℤ :=
  if x - ⌊x⌋ < 1/2 then ⌊x⌋
  else if 1/2 < x - ⌊x⌋ then ⌊x⌋ + 1
  else if ⌊x⌋ % 2 = 0 then ⌊x⌋ else ⌊x⌋ + 1

/-- Python `round(x, 1)`: round to one decimal place, half to even. -/
def roundTo1 (x : ℚ) : ℚ :=
  (roundHalfEven (x * 10) : ℚ) / 10

/-- `LearningStyleAnalyzer._normalize_scores`: rescale a dimension's summed
scores so that the maximum becomes 10, rounding to one decimal; an empty
mapping stays empty, and a mapping whose maximum is 0 is returned unchanged. -/
def normalize_scores (m : ScoreMap) : ScoreMap :=
  if m.isEmpty then []
  else
    let max_score := listMax (m.map Prod.snd)
    if max_score = 0 then m
    else m.map fun p => (p.1, roundTo1 (p.2 / max_score * 10))

/-- Python `sorted(m.items(), key=value, reverse=True)`: a stable descending
sort of the trait/score pairs by score. -/
def sortDesc (m : ScoreMap) : ScoreMap :=
  m.mergeSort fun a b => decide (b.2 ≤ a.2)

/-- `LearningStyleAnalyzer._get_primary_secondary`: the first and second
entries of the descending sort, `none` beyond the length. -/
def get_primary_secondary (m : ScoreMap) : Option String × Option String :=
  if m.isEmpty then (none, none)
  else
    let sorted_scores := sortDesc m
    (sorted_scores.head?.map Prod.fst, sorted_scores[1]?.map Prod.fst)

/-- One `if trait in scores: total += scores[trait] * w` term of
`_determine_ideal_environment`: the key's score times the weight when the
key is present, otherwise 0. -/
def impactTerm (m : ScoreMap) (k : String) (w : ℚ) : ℚ :=
  match m.lookup k with
  | some v => v * w
  | none => 0

/-- Structure preference score: `logical * 0.7 + organization * 0.3`. -/
def structure_score (ls bp : ScoreMap) : ℚ :=
  impactTerm ls "logical" (7/10) + impactTerm bp "organization" (3/10)

/-- Social preference score: `social * 0.6 + collaboration * 0.4`. -/
def social_score (ls bp : ScoreMap) : ℚ :=
  impactTerm ls "social" (6/10) + impactTerm bp "collaboration" (4/10)

/-- Pace preference score: `independence * 0.5 + adaptability * 0.5`. -/
def pace_score (bp : ScoreMap) : ℚ :=
  impactTerm bp "independence" (1/2) + impactTerm bp "adaptability" (1/2)

/-- Feedback preference score: `(10 - confidence) * 0.7 + risk_taking * 0.3`,
where an absent `confidence` key contributes 0 (not `(10-0)*0.7`). -/
def feedback_score (bp : ScoreMap) : ℚ :=
  (match bp.lookup "confidence" with
   | some v => (10 - v) * (7/10)
   | none => 0) +
  impactTerm bp "risk_taking" (3/10)

/-- The `if score > 7 / elif score > 5 / else` label selection used by each
of the four environment rules. -/
def threeWay (s : ℚ) (hi mid lo : String) : String :=
  if 7 < s then hi else if 5 < s then mid else lo

/-- `LearningStyleAnalyzer._determine_ideal_environment`: the four keyed
environment labels, in the dict insertion order of the source. -/
def determine_ideal_environment (ls bp : ScoreMap) : List (String × String) :=
  [("structure", threeWay (structure_score ls bp)
      "Highly structured" "Moderately structured" "Flexible and unstructured"),
   ("social", threeWay (social_score ls bp)
      "Collaborative group settings" "Balance of group and independent work"
      "Independent study"),
   ("pace", threeWay (pace_score bp)
      "Self-paced learning" "Flexible deadlines with guidance"
      "Structured schedule with clear deadlines"),
   ("feedback", threeWay (feedback_score bp)
      "Frequent, immediate feedback"
      "Regular check-ins with constructive feedback"
      "Space for self-reflection with periodic guidance")]

/-- `LearningStyleAnalyzer._generate_learning_tips`: canned advice keyed on
the primary learning style and primary cognitive strength. -/
def generate_learning_tips (pls pcs : Option String) : List String :=
  (if pls = some "visual" then
    ["Use diagrams, charts, and mind maps to visualize concepts",
     "Color-code notes and study materials",
     "Watch educational videos and demonstrations"]
   else if pls = some "auditory" then
    ["Record lectures and listen to them again",
     "Read material aloud or use text-to-speech",
     "Discuss concepts with others to reinforce understanding"]
   else if pls = some "kinesthetic" then
    ["Use hands-on activities and experiments",
     "Take breaks for physical movement during study sessions",
     "Create physical models or use manipulatives"]
   else if pls = some "logical" then
    ["Organize information in logical sequences or hierarchies",
     "Look for patterns and relationships between concepts",
     "Break complex problems into smaller, manageable steps"]
   else if pls = some "social" then
    ["Form or join study groups",
     "Teach concepts to others to reinforce understanding",
     "Engage in class discussions and collaborative projects"]
   else if pls = some "solitary" then
    ["Create a quiet, distraction-free study environment",
     "Set personal goals and track progress",
     "Use self-paced learning resources"]
   else []) ++
  (if pcs = some "memory" then
    ["Use spaced repetition techniques for memorization",
     "Create mnemonic devices for complex information"]
   else if pcs = some "attention" then
    ["Use the Pomodoro technique (focused work with short breaks)",
     "Minimize distractions in your study environment"]
   else if pcs = some "problem_solving" then
    ["Practice with a variety of problem types",
     "Analyze worked examples before attempting new problems"]
   else if pcs = some "creativity" then
    ["Explore multiple approaches to assignments",
     "Connect concepts across different subjects"]
   else if pcs = some "critical_thinking" then
    ["Question assumptions and evaluate evidence",
     "Compare and contrast different perspectives"]
   else [])

/-! ### The data model (`diagnostic/models.py`) restricted to the fields the
engine reads, with the Django query layer as an explicit database value. -/

/-- `QuestionOption`: the four JSON impact mappings of an answer option
(each a dict from trait name to numeric weight). -/
structure QuestionOption where
  learning_style_impact : List (String × ℚ)
  cognitive_impact : List (String × ℚ)
  behavior_impact : List (String × ℚ)
  interest_impact : List (String × ℚ)
deriving DecidableEq

/-- `Response`: belongs to one assessment; `selected_option` is nullable
(open-ended responses store free text instead). -/
structure Response where
  assessment_id : Nat
  selected_option : Option QuestionOption
deriving DecidableEq

/-- `Assessment.Status`. -/
inductive AssessmentStatus
  | in_progress
  | completed
  | abandoned
deriving DecidableEq

/-- The student fields the engine copies into its result. -/
structure Student where
  id : Nat
  first_name : String
  last_name : String
  grade : String
deriving DecidableEq

/-- `Assessment`: the fields the engine reads. -/
structure Assessment where
  id : Nat
  student : Student
  status : AssessmentStatus
deriving DecidableEq

/-- The persistent store the engine queries:
`Assessment.objects` and `Response.objects`. -/
structure DB where
  assessments : List Assessment
  responses : List Response
deriving DecidableEq

/-- `defaultdict(float)` update `m[k] += v`: add to the existing binding,
or append a fresh binding at the end in insertion order. -/
def addScore : ScoreMap → String → ℚ → ScoreMap
  | [], k, v => [(k, v)]
  | (k', v') :: rest, k, v =>
    if k' = k then (k', v' + v) :: rest
    else (k', v') :: addScore rest k v

/-- One `if option.X_impact: for t, s in option.X_impact.items(): d[t] += float(s)`
block of `analyze_assessment` (the truthiness guard skips empty mappings). -/
def addImpacts (acc : ScoreMap) (impacts : List (String × ℚ)) : ScoreMap :=
  if impacts.isEmpty then acc
  else impacts.foldl (fun a p => addScore a p.1 p.2) acc

/-- The per-dimension accumulation loop of `analyze_assessment`: responses
without a selected option are skipped, the others contribute the chosen
impact mapping of their selected option. -/
def aggregate (responses : List Response) (proj : QuestionOption → List (String × ℚ)) :
    ScoreMap :=
  responses.foldl
    (fun acc r =>
      match r.selected_option with
      | none => acc
      | some o => addImpacts acc (proj o))
    []

/-- One `{scores, primary, secondary}` block of the analysis result. -/
structure DimensionResult where
  scores : ScoreMap
  primary : Option String
  secondary : Option String
deriving DecidableEq

/-- Normalize one dimension's aggregate and rank it. -/
def analyzeDimension (responses : List Response)
    (proj : QuestionOption → List (String × ℚ)) : DimensionResult :=
  let scores := normalize_scores (aggregate responses proj)
  let ps := get_primary_secondary scores
  ⟨scores, ps.1, ps.2⟩

/-- The `analysis_results` dict assembled by `analyze_assessment`. -/
structure AnalysisProfile where
  assessment_id : Nat
  student_id : Nat
  student_name : String
  grade : String
  learning_styles : DimensionResult
  cognitive_strengths : DimensionResult
  behavior_patterns : DimensionResult
  interests : DimensionResult
  ideal_learning_environment : List (String × String)
  learning_effectiveness_tips : List String
deriving DecidableEq

/-- The engine's outcome: the success profile or one of the three error
dicts returned by `analyze_assessment` (`DoesNotExist` caught, status check,
empty-responses check). -/
inductive AnalysisResult
  | notFound (assessment_id : Nat)
  | notCompleted (status : AssessmentStatus)
  | noResponses (assessment_id : Nat)
  | success (profile : AnalysisProfile)
deriving DecidableEq

/-- `LearningStyleAnalyzer.analyze_assessment`: look up the assessment
(`DoesNotExist` becomes the not-found error dict), reject a non-completed
status, reject an empty response set, and otherwise aggregate, normalize,
rank, and assemble the profile.  Total by construction: every outcome is a
returned value, never a raised fault. -/
def analyze_assessment (db : DB) (assessment_id : Nat) : AnalysisResult :=
  match db.assessments.find? (fun a => a.id == assessment_id) with
  | none => .notFound assessment_id
  | some assessment =>
    if assessment.status ≠ .completed then .notCompleted assessment.status
    else
      let responses := db.responses.filter (fun r => r.assessment_id == assessment.id)
      if responses.isEmpty then .noResponses assessment_id
      else
        let ls := analyzeDimension responses QuestionOption.learning_style_impact
        let cs := analyzeDimension responses QuestionOption.cognitive_impact
        let bp := analyzeDimension responses QuestionOption.behavior_impact
        let its := analyzeDimension responses QuestionOption.interest_impact
        .success
          { assessment_id := assessment_id
            student_id := assessment.student.id
            student_name :=
              assessment.student.first_name ++ " " ++ assessment.student.last_name
            grade := assessment.student.grade
            learning_styles := ls
            cognitive_strengths := cs
            behavior_patterns := bp
            interests := its
            ideal_learning_environment :=
              determine_ideal_environment ls.scores bp.scores
            learning_effectiveness_tips :=
              generate_learning_tips ls.primary cs.primary }

/-- The total weight an impact mapping assigns to trait `t` (summing repeated
entries, though authored dicts have unique keys). -/
def sumWeights (impacts : List (String × ℚ)) (t : String) : ℚ :=
  ((impacts.filter fun p => p.1 == t).map Prod.snd).sum

/-- What one response contributes to trait `t` of the dimension selected by
`proj`: nothing without a selected option, otherwise the option's weights. -/
def responseContribution (proj : QuestionOption → List (String × ℚ))
    (r : Response) (t : String) : ℚ :=
  match r.selected_option with
  | none => 0
  | some o => sumWeights (proj o) t

/-- The learning-styles block of a successful analysis, `none` on failure. -/
def resultLearningStyles : AnalysisResult → Option DimensionResult
  | .success p => some p.learning_styles
  | _ => none

/-- Scenario A of the spec: one completed assessment with a single response
whose selected option has `learning_style_impact = {"visual": 8, "auditory": 2}`
and empty other impact mappings. -/
def scenarioA_db : DB :=
  { assessments := [⟨1, ⟨5, "Ada", "L", "GRADE_5"⟩, .completed⟩]
    responses := [⟨1, some ⟨[("visual", 8), ("auditory", 2)], [], [], []⟩⟩] }

/-! ### Supporting lemmas -/

theorem lookup0_nil (k : String) : lookup0 [] k = 0 := rfl

theorem lookup0_cons (k' : String) (v' : ℚ) (tl : ScoreMap) (t : String) :
    lookup0 ((k', v') :: tl) t = if t = k' then v' else lookup0 tl t := by
  by_cases h : t = k'
  · simp [lookup0, List.lookup, h]
  · have hb : (t == k') = false := beq_eq_false_iff_ne.mpr h
    simp [lookup0, List.lookup, hb, h]

theorem lookup0_addScore (m : ScoreMap) (k : String) (v : ℚ) (t : String) :
    lookup0 (addScore m k v) t = lookup0 m t + (if k = t then v else 0) := by
  induction m with
  | nil =>
    by_cases h : t = k
    · subst h
      simp [addScore, lookup0_cons, lookup0_nil]
    · have h' : ¬ k = t := fun hh => h hh.symm
      simp [addScore, lookup0_cons, lookup0_nil, h, h']
  | cons hd tl ih =>
    obtain ⟨k', v'⟩ := hd
    by_cases hk : k' = k
    · subst hk
      by_cases h : t = k'
      · subst h
        simp [addScore, lookup0_cons]
      · have h' : ¬ k' = t := fun hh => h hh.symm
        simp [addScore, lookup0_cons, h, h']
    · rw [addScore, if_neg hk]
      by_cases h : t = k'
      · subst h
        have h' : ¬ k = t := fun hh => hk hh.symm
        simp [lookup0_cons, h']
      · rw [lookup0_cons, lookup0_cons, if_neg h, if_neg h, ih]

theorem sumWeights_nil (t : String) : sumWeights [] t = 0 := rfl

theorem sumWeights_cons (p : String × ℚ) (imps : List (String × ℚ)) (t : String) :
    sumWeights (p :: imps) t = (if p.1 = t then p.2 else 0) + sumWeights imps t := by
  by_cases h : p.1 = t
  · simp [sumWeights, List.filter_cons, h]
  · have hb : (p.1 == t) = false := beq_eq_false_iff_ne.mpr h
    simp [sumWeights, List.filter_cons, hb, h]

theorem lookup0_foldl_addScore (imps : List (String × ℚ)) (acc : ScoreMap) (t : String) :
    lookup0 (imps.foldl (fun a p => addScore a p.1 p.2) acc) t =
      lookup0 acc t + sumWeights imps t := by
  induction imps generalizing acc with
  | nil => simp [sumWeights_nil]
  | cons p ps ih =>
    rw [List.foldl_cons, ih, lookup0_addScore, sumWeights_cons]
    ring

theorem lookup0_addImpacts (acc : ScoreMap) (imps : List (String × ℚ)) (t : String) :
    lookup0 (addImpacts acc imps) t = lookup0 acc t + sumWeights imps t := by
  rw [addImpacts]
  by_cases h : imps.isEmpty
  · have he : imps = [] := List.isEmpty_iff.mp h
    subst he
    simp [sumWeights_nil]
  · rw [if_neg h]
    exact lookup0_foldl_addScore imps acc t

theorem lookup0_foldl_responses (proj : QuestionOption → List (String × ℚ))
    (responses : List Response) (acc : ScoreMap) (t : String) :
    lookup0
      (responses.foldl
        (fun acc r =>
          match r.selected_option with
          | none => acc
          | some o => addImpacts acc (proj o)) acc) t =
      lookup0 acc t + (responses.map fun r => responseContribution proj r t).sum := by
  induction responses generalizing acc with
  | nil => simp
  | cons r rs ih =>
    rw [List.foldl_cons, ih, List.map_cons, List.sum_cons]
    cases hsel : r.selected_option with
    | none => simp [responseContribution, hsel]
    | some o =>
      simp only [responseContribution, hsel, lookup0_addImpacts]
      ring

theorem lookup0_aggregate (proj : QuestionOption → List (String × ℚ))
    (responses : List Response) (t : String) :
    lookup0 (aggregate responses proj) t =
      (responses.map fun r => responseContribution proj r t).sum := by
  rw [aggregate, lookup0_foldl_responses]
  simp [lookup0_nil]

theorem aggregate_of_all_none (proj : QuestionOption → List (String × ℚ))
    (responses : List Response)
    (h : ∀ r ∈ responses, r.selected_option = none) :
    aggregate responses proj = [] := by
  rw [aggregate]
  induction responses with
  | nil => rfl
  | cons r rs ih =>
    rw [List.foldl_cons]
    have hr : r.selected_option = none := h r (List.mem_cons_self r rs)
    rw [hr]
    exact ih fun x hx => h x (List.mem_cons_of_mem r hx)

theorem le_foldl_max (xs : List ℚ) (x : ℚ) : x ≤ xs.foldl max x := by
  induction xs generalizing x with
  | nil => exact le_refl x
  | cons y ys ih =>
    rw [List.foldl_cons]
    exact le_trans (le_max_left x y) (ih (max x y))

theorem mem_le_foldl_max (xs : List ℚ) (x v : ℚ) (hv : v ∈ xs) :
    v ≤ xs.foldl max x := by
  induction xs generalizing x with
  | nil => cases hv
  | cons y ys ih =>
    rw [List.foldl_cons]
    rcases List.mem_cons.mp hv with h | h
    · subst h
      exact le_trans (le_max_right x v) (le_foldl_max ys (max x v))
    · exact ih (max x y) h

theorem foldl_max_mem (xs : List ℚ) (x : ℚ) :
    xs.foldl max x = x ∨ xs.foldl max x ∈ xs := by
  induction xs generalizing x with
  | nil => exact Or.inl rfl
  | cons y ys ih =>
    rw [List.foldl_cons]
    rcases ih (max x y) with h | h
    · rcases max_choice x y with hm | hm
      · exact Or.inl (h.trans hm)
      · refine Or.inr ?_
        rw [h, hm]
        exact List.mem_cons_self y ys
    · exact Or.inr (List.mem_cons_of_mem y h)

theorem le_listMax (l : List ℚ) (v : ℚ) (hv : v ∈ l) : v ≤ listMax l := by
  cases l with
  | nil => cases hv
  | cons x xs =>
    rw [listMax]
    rcases List.mem_cons.mp hv with h | h
    · subst h
      exact le_foldl_max xs v
    · exact mem_le_foldl_max xs x v h

theorem listMax_mem (l : List ℚ) (h : l ≠ []) : listMax l ∈ l := by
  cases l with
  | nil => exact absurd rfl h
  | cons x xs =>
    rw [listMax]
    rcases foldl_max_mem xs x with h' | h'
    · rw [h']
      exact List.mem_cons_self x xs
    · exact List.mem_cons_of_mem x h'

theorem listMax_eq_of (l : List ℚ) (a : ℚ) (ha : a ∈ l) (hall : ∀ v ∈ l, v ≤ a) :
    listMax l = a := by
  have hne : l ≠ [] := List.ne_nil_of_mem ha
  exact le_antisymm (hall _ (listMax_mem l hne)) (le_listMax l a ha)

theorem roundHalfEven_ge (x : ℚ) : x - 1/2 ≤ (roundHalfEven x : ℚ) := by
  rw [roundHalfEven]
  split
  · push_cast
    linarith [Int.floor_le x, ‹x - ⌊x⌋ < 1/2›]
  · split
    · push_cast
      linarith [Int.lt_floor_add_one x]
    · split <;>
      · push_cast
        linarith [‹¬ x - ⌊x⌋ < 1/2›]

theorem roundHalfEven_le (x : ℚ) : (roundHalfEven x : ℚ) ≤ x + 1/2 := by
  rw [roundHalfEven]
  split
  · push_cast
    linarith [Int.floor_le x]
  · split
    · push_cast
      linarith [‹1/2 < x - ⌊x⌋›]
    · split <;>
      · push_cast
        linarith [Int.floor_le x, ‹¬ (1:ℚ)/2 < x - ⌊x⌋›]

theorem roundTo1_nonneg (x : ℚ) (hx : 0 ≤ x) : 0 ≤ roundTo1 x := by
  rw [roundTo1]
  have h1 : x * 10 - 1/2 ≤ (roundHalfEven (x * 10) : ℚ) := roundHalfEven_ge (x * 10)
  have h2 : (-1 : ℚ) < (roundHalfEven (x * 10) : ℚ) := by linarith
  have h3 : (-1 : ℤ) < roundHalfEven (x * 10) := by exact_mod_cast h2
  have h4 : (0 : ℤ) ≤ roundHalfEven (x * 10) := by omega
  have h5 : (0 : ℚ) ≤ (roundHalfEven (x * 10) : ℚ) := by exact_mod_cast h4
  positivity

theorem roundTo1_le_ten (x : ℚ) (hx : x ≤ 10) : roundTo1 x ≤ 10 := by
  rw [roundTo1]
  have h1 : (roundHalfEven (x * 10) : ℚ) ≤ x * 10 + 1/2 := roundHalfEven_le (x * 10)
  have h2 : (roundHalfEven (x * 10) : ℚ) < 101 := by linarith
  have h3 : roundHalfEven (x * 10) < (101 : ℤ) := by exact_mod_cast h2
  have h4 : roundHalfEven (x * 10) ≤ (100 : ℤ) := by omega
  have h5 : (roundHalfEven (x * 10) : ℚ) ≤ 100 := by exact_mod_cast h4
  linarith

theorem roundTo1_ten : roundTo1 10 = 10 := by
  have hf : ⌊(10 : ℚ) * 10⌋ = 100 := by norm_num
  rw [roundTo1, roundHalfEven, hf]
  norm_num

theorem normalize_scores_nil : normalize_scores [] = [] := rfl

theorem normalize_scores_of_max_zero (m : ScoreMap) (hne : m ≠ [])
    (h0 : listMax (m.map Prod.snd) = 0) : normalize_scores m = m := by
  rw [normalize_scores]
  have he : m.isEmpty = false := by
    simpa [List.isEmpty_iff] using hne
  simp [he, h0]

theorem normalize_scores_of_max_ne (m : ScoreMap) (hne : m ≠ [])
    (h0 : listMax (m.map Prod.snd) ≠ 0) :
    normalize_scores m =
      m.map fun p => (p.1, roundTo1 (p.2 / listMax (m.map Prod.snd) * 10)) := by
  rw [normalize_scores]
  have he : m.isEmpty = false := by
    simpa [List.isEmpty_iff] using hne
  simp [he, h0]

theorem mergeSort_pair {α : Type} (le : α → α → Bool) (a b : α) :
    [a, b].mergeSort le = if le a b then [a, b] else [b, a] := by
  rw [List.mergeSort]
  simp [List.splitInTwo, List.splitAt, List.splitAt.go, List.merge]

theorem sortDesc_perm (m : ScoreMap) : (sortDesc m).Perm m :=
  List.mergeSort_perm m _

theorem sortDesc_sorted (m : ScoreMap) :
    (sortDesc m).Pairwise fun a b => b.2 ≤ a.2 := by
  have h : (List.mergeSort m fun a b => decide (b.2 ≤ a.2)).Pairwise
      (fun a b : String × Score => decide (b.2 ≤ a.2) = true) :=
    List.sorted_mergeSort
      (fun a b c hab hbc => by
        simp only [decide_eq_true_eq] at hab hbc ⊢
        exact le_trans hbc hab)
      (fun a b => by
        rcases le_total a.2 b.2 with h | h <;> simp [h])
      m
  exact h.imp fun hab => of_decide_eq_true hab

theorem sortDesc_nil : sortDesc [] = [] := by
  rw [sortDesc, List.mergeSort_nil]

theorem sortDesc_singleton (p : String × Score) : sortDesc [p] = [p] := by
  rw [sortDesc, List.mergeSort_singleton]

theorem get_primary_secondary_nil : get_primary_secondary [] = (none, none) := rfl

theorem get_primary_secondary_singleton (k : String) (v : Score) :
    get_primary_secondary [(k, v)] = (some k, none) := by
  rw [get_primary_secondary]
  simp [sortDesc_singleton]

/-! ### Additional shared lemmas used by the claim theorems -/

theorem impactTerm_eq (m : ScoreMap) (k : String) (w : ℚ) :
    impactTerm m k w = lookup0 m k * w := by
  rw [impactTerm, lookup0]
  cases m.lookup k <;> simp

theorem threeWay_mem (sc : ℚ) (hi mid lo : String) :
    threeWay sc hi mid lo ∈ [hi, mid, lo] := by
  rw [threeWay]
  split
  · simp
  · split <;> simp

/-! ### Claim theorems -/

/-- C1: `analyze_assessment` settles every call into one of four structured
outcomes: `notFound` when no assessment has the requested id, `notCompleted`
when the found assessment's status is not completed, `noResponses` when the
completed assessment has zero response records, and otherwise a success
profile.  The embedded function is total, so no outcome is an unhandled
fault past the engine boundary. -/
theorem C1_entry_contract (db : DB) (aid : Nat) :
    (db.assessments.find? (fun a => a.id == aid) = none →
      analyze_assessment db aid = .notFound aid) ∧
    (∀ a, db.assessments.find? (fun a => a.id == aid) = some a →
      a.status ≠ .completed →
      analyze_assessment db aid = .notCompleted a.status) ∧
    (∀ a, db.assessments.find? (fun a => a.id == aid) = some a →
      a.status = .completed →
      db.responses.filter (fun r => r.assessment_id == a.id) = [] →
      analyze_assessment db aid = .noResponses aid) ∧
    (∀ a, db.assessments.find? (fun a => a.id == aid) = some a →
      a.status = .completed →
      db.responses.filter (fun r => r.assessment_id == a.id) ≠ [] →
      ∃ p, analyze_assessment db aid = .success p) := by
  refine ⟨?_, ?_, ?_, ?_⟩
  · intro h
    rw [analyze_assessment, h]
  · intro a ha hst
    rw [analyze_assessment, ha]
    simp [hst]
  · intro a ha hst hresp
    rw [analyze_assessment, ha]
    simp [hst, hresp]
  · intro a ha hst hresp
    rw [analyze_assessment, ha]
    simp only [hst]
    have hie : (db.responses.filter fun r => r.assessment_id == a.id).isEmpty = false := by
      simpa [List.isEmpty_iff] using hresp
    simp [hie]

/-- C1 witness: on an empty database the lookup fails and the call returns
the `notFound` outcome. -/
theorem C1_entry_contract_witness :
    (DB.mk [] []).assessments.find? (fun a => a.id == 7) = none ∧
    analyze_assessment (DB.mk [] []) 7 = AnalysisResult.notFound 7 :=
  ⟨rfl, (C1_entry_contract (DB.mk [] []) 7).1 rfl⟩

/-- C2: the Normalizer returns an empty mapping unchanged; `M`, the value the
source divides by, bounds every value of the mapping; when `M = 0` the input
comes back unchanged; and when `M ≠ 0` every trait's score becomes
`round((value / M) * 10, 1)`, so a trait attaining `M` maps to exactly 10.0. -/
theorem C2_normalizer_formula (m : ScoreMap) (hne : m ≠ []) :
    normalize_scores [] = [] ∧
    (∀ v ∈ m.map Prod.snd, v ≤ listMax (m.map Prod.snd)) ∧
    (listMax (m.map Prod.snd) = 0 → normalize_scores m = m) ∧
    (listMax (m.map Prod.snd) ≠ 0 →
      normalize_scores m =
        m.map (fun p => (p.1, roundTo1 (p.2 / listMax (m.map Prod.snd) * 10))) ∧
      ∀ k, (k, listMax (m.map Prod.snd)) ∈ m → (k, (10:ℚ)) ∈ normalize_scores m) := by
  refine ⟨normalize_scores_nil, fun v hv => le_listMax _ v hv,
    fun h0 => normalize_scores_of_max_zero m hne h0, fun h0 => ?_⟩
  refine ⟨normalize_scores_of_max_ne m hne h0, fun k hk => ?_⟩
  rw [normalize_scores_of_max_ne m hne h0]
  refine List.mem_map.mpr ⟨(k, listMax (m.map Prod.snd)), hk, ?_⟩
  simp [div_self h0, roundTo1_ten]

/-- C2 witness: the Normalizer contract instantiated at `{"a": 2, "b": 1}`. -/
theorem C2_normalizer_formula_witness :
    ([("a", 2), ("b", 1)] : ScoreMap) ≠ [] ∧
    (normalize_scores [] = [] ∧
     (∀ v ∈ ([("a", 2), ("b", 1)] : ScoreMap).map Prod.snd,
        v ≤ listMax (([("a", 2), ("b", 1)] : ScoreMap).map Prod.snd)) ∧
     (listMax (([("a", 2), ("b", 1)] : ScoreMap).map Prod.snd) = 0 →
        normalize_scores [("a", 2), ("b", 1)] = [("a", 2), ("b", 1)]) ∧
     (listMax (([("a", 2), ("b", 1)] : ScoreMap).map Prod.snd) ≠ 0 →
        normalize_scores [("a", 2), ("b", 1)] =
          ([("a", 2), ("b", 1)] : ScoreMap).map
            (fun p => (p.1,
              roundTo1 (p.2 / listMax (([("a", 2), ("b", 1)] : ScoreMap).map Prod.snd) * 10))) ∧
        ∀ k, (k, listMax (([("a", 2), ("b", 1)] : ScoreMap).map Prod.snd)) ∈
            ([("a", 2), ("b", 1)] : ScoreMap) →
          (k, (10:ℚ)) ∈ normalize_scores [("a", 2), ("b", 1)])) :=
  ⟨by decide, C2_normalizer_formula [("a", 2), ("b", 1)] (by decide)⟩

/-- C3 counterexample: the non-empty mapping `{"a": 0, "b": -1}` has maximum
0, so the Normalizer returns it unchanged; its maximum is not 10.0 and the
value -1 lies outside `[0, 10]`, refuting the invariant as stated for all
non-empty produced mappings. -/
theorem C3_counterexample :
    ¬ (listMax ((normalize_scores [("a", 0), ("b", -1)]).map Prod.snd) = 10 ∧
       ∀ p ∈ normalize_scores [("a", 0), ("b", -1)], 0 ≤ p.2 ∧ p.2 ≤ 10) := by
  decide

/-- C3 (amended): for every non-empty score mapping whose values are all
nonnegative and whose maximum is positive, the Normalizer's output has
maximum exactly 10.0 and every value lies in `[0, 10]`. -/
theorem C3_normalization_invariant (m : ScoreMap) (hne : m ≠ [])
    (hnn : ∀ p ∈ m, 0 ≤ p.2)
    (hpos : 0 < listMax (m.map Prod.snd)) :
    listMax ((normalize_scores m).map Prod.snd) = 10 ∧
    ∀ p ∈ normalize_scores m, 0 ≤ p.2 ∧ p.2 ≤ 10 := by
  have hMne : listMax (m.map Prod.snd) ≠ 0 := ne_of_gt hpos
  rw [normalize_scores_of_max_ne m hne hMne]
  have hub : ∀ p ∈ m, roundTo1 (p.2 / listMax (m.map Prod.snd) * 10) ≤ 10 := by
    intro p hp
    apply roundTo1_le_ten
    have hle : p.2 ≤ listMax (m.map Prod.snd) :=
      le_listMax _ _ (List.mem_map_of_mem Prod.snd hp)
    have h1 : p.2 / listMax (m.map Prod.snd) ≤ 1 := (div_le_one hpos).mpr hle
    nlinarith
  constructor
  · apply listMax_eq_of
    · have hmem : listMax (m.map Prod.snd) ∈ m.map Prod.snd := by
        apply listMax_mem
        intro h
        exact hne (List.map_eq_nil_iff.mp h)
      obtain ⟨p, hp, hpv⟩ := List.mem_map.mp hmem
      have h10 : roundTo1 (p.2 / listMax (m.map Prod.snd) * 10) = 10 := by
        rw [hpv, div_self hMne, one_mul, roundTo1_ten]
      refine List.mem_map.mpr ⟨(p.1, roundTo1 (p.2 / listMax (m.map Prod.snd) * 10)),
        List.mem_map.mpr ⟨p, hp, rfl⟩, ?_⟩
      simpa using h10
    · intro v hv
      obtain ⟨q, hq, hqv⟩ := List.mem_map.mp hv
      obtain ⟨p, hp, rfl⟩ := List.mem_map.mp hq
      rw [← hqv]
      exact hub p hp
  · intro q hq
    obtain ⟨p, hp, rfl⟩ := List.mem_map.mp hq
    refine ⟨?_, hub p hp⟩
    apply roundTo1_nonneg
    have hnn' := hnn p hp
    positivity

/-- C3 witness: the amended invariant instantiated at `{"a": 4}`. -/
theorem C3_normalization_invariant_witness :
    ([("a", 4)] : ScoreMap) ≠ [] ∧
    (∀ p ∈ ([("a", 4)] : ScoreMap), 0 ≤ p.2) ∧
    0 < listMax (([("a", 4)] : ScoreMap).map Prod.snd) ∧
    (listMax ((normalize_scores [("a", 4)]).map Prod.snd) = 10 ∧
     ∀ p ∈ normalize_scores [("a", 4)], 0 ≤ p.2 ∧ p.2 ≤ 10) :=
  ⟨by decide, by decide, by decide,
    C3_normalization_invariant [("a", 4)] (by decide) (by decide) (by decide)⟩

/-- C4: for every response list and every dimension projection, the
aggregated value of any trait name `t` — recognized or ad-hoc — is the sum
over all responses of the weights the selected option's impact mapping
assigns to `t`; a response without a selected option contributes 0, and a
trait absent from the accumulator starts from 0. -/
theorem C4_aggregator_sum (proj : QuestionOption → List (String × ℚ))
    (responses : List Response) (t : String) :
    lookup0 (aggregate responses proj) t =
      (responses.map fun r => responseContribution proj r t).sum ∧
    (∀ (i : Nat) (t' : String), responseContribution proj ⟨i, none⟩ t' = 0) ∧
    lookup0 [] t = 0 :=
  ⟨lookup0_aggregate proj responses t, fun _ _ => rfl, rfl⟩

/-- C5: a completed assessment whose (non-empty) responses all lack a
selected option is analyzed successfully — `noResponses` is not triggered —
and every one of the four dimensions comes back with an empty score mapping
and `primary = secondary = none`. -/
theorem C5_open_ended_only (db : DB) (aid : Nat) (a : Assessment)
    (ha : db.assessments.find? (fun x => x.id == aid) = some a)
    (hst : a.status = .completed)
    (hne : db.responses.filter (fun r => r.assessment_id == a.id) ≠ [])
    (hopen : ∀ r ∈ db.responses.filter (fun r => r.assessment_id == a.id),
      r.selected_option = none) :
    ∃ p, analyze_assessment db aid = .success p ∧
      p.learning_styles = ⟨[], none, none⟩ ∧
      p.cognitive_strengths = ⟨[], none, none⟩ ∧
      p.behavior_patterns = ⟨[], none, none⟩ ∧
      p.interests = ⟨[], none, none⟩ := by
  have hdim : ∀ proj, analyzeDimension
      (db.responses.filter fun r => r.assessment_id == a.id) proj = ⟨[], none, none⟩ := by
    intro proj
    rw [analyzeDimension, aggregate_of_all_none proj _ hopen,
      normalize_scores_nil, get_primary_secondary_nil]
  have hie : (db.responses.filter fun r => r.assessment_id == a.id).isEmpty = false := by
    simpa [List.isEmpty_iff] using hne
  rw [analyze_assessment, ha]
  simp only [hst]
  simp only [hie]
  simp [hdim]

/-- C5 witness: one completed assessment whose single response is open-ended
(no selected option) yields a success profile with all four dimensions
empty. -/
theorem C5_open_ended_only_witness :
    ((DB.mk [⟨1, ⟨2, "A", "B", "G"⟩, .completed⟩] [⟨1, none⟩]).assessments.find?
      (fun x => x.id == 1) = some ⟨1, ⟨2, "A", "B", "G"⟩, .completed⟩) ∧
    (Assessment.mk 1 ⟨2, "A", "B", "G"⟩ .completed).status = .completed ∧
    ((DB.mk [⟨1, ⟨2, "A", "B", "G"⟩, .completed⟩] [⟨1, none⟩]).responses.filter
      (fun r => r.assessment_id == (Assessment.mk 1 ⟨2, "A", "B", "G"⟩ .completed).id) ≠ []) ∧
    (∀ r ∈ (DB.mk [⟨1, ⟨2, "A", "B", "G"⟩, .completed⟩] [⟨1, none⟩]).responses.filter
      (fun r => r.assessment_id == (Assessment.mk 1 ⟨2, "A", "B", "G"⟩ .completed).id),
      r.selected_option = none) ∧
    ∃ p, analyze_assessment (DB.mk [⟨1, ⟨2, "A", "B", "G"⟩, .completed⟩] [⟨1, none⟩]) 1 =
        .success p ∧
      p.learning_styles = ⟨[], none, none⟩ ∧
      p.cognitive_strengths = ⟨[], none, none⟩ ∧
      p.behavior_patterns = ⟨[], none, none⟩ ∧
      p.interests = ⟨[], none, none⟩ :=
  ⟨rfl, rfl, by decide, by decide,
    C5_open_ended_only (DB.mk [⟨1, ⟨2, "A", "B", "G"⟩, .completed⟩] [⟨1, none⟩]) 1
      (Assessment.mk 1 ⟨2, "A", "B", "G"⟩ .completed) rfl rfl (by decide) (by decide)⟩

/-- C6: the Ranker returns `(none, none)` on an empty mapping and
`(the trait, none)` on a singleton; on a mapping with at least two traits it
returns `(some p, some s)` where the mapping is a permutation of
`p :: s :: rest` with `s`'s score ≤ `p`'s score and every score in `rest`
≤ `s`'s score — so primary ≥ secondary ≥ every other trait. -/
theorem C6_ranker_order (m : ScoreMap) (hlen : 2 ≤ m.length) :
    get_primary_secondary [] = (none, none) ∧
    (∀ k v, get_primary_secondary [(k, v)] = (some k, none)) ∧
    ∃ (p s : String × Score) (rest : ScoreMap),
      get_primary_secondary m = (some p.1, some s.1) ∧
      m.Perm (p :: s :: rest) ∧
      s.2 ≤ p.2 ∧ ∀ q ∈ rest, q.2 ≤ s.2 := by
  refine ⟨get_primary_secondary_nil, get_primary_secondary_singleton, ?_⟩
  have hlen' : 2 ≤ (sortDesc m).length := by
    rw [sortDesc, List.length_mergeSort]
    exact hlen
  obtain ⟨p, t, ht⟩ := List.exists_cons_of_ne_nil (l := sortDesc m)
    (fun h => by rw [h] at hlen'; simp at hlen')
  obtain ⟨s, t2, ht2⟩ := List.exists_cons_of_ne_nil (l := t)
    (fun h => by rw [h] at ht; rw [ht] at hlen'; simp at hlen')
  rw [ht2] at ht
  have hperm : m.Perm (p :: s :: t2) := by
    have hp := sortDesc_perm m
    rw [ht] at hp
    exact hp.symm
  have hsorted := sortDesc_sorted m
  rw [ht] at hsorted
  have h1 := List.pairwise_cons.mp hsorted
  have h2 := List.pairwise_cons.mp h1.2
  refine ⟨p, s, t2, ?_, hperm, h1.1 s (List.mem_cons_self s t2), h2.1⟩
  rw [get_primary_secondary]
  have hie : m.isEmpty = false := by
    rw [List.isEmpty_eq_false_iff_exists_mem]
    exact ⟨p, (sortDesc_perm m).subset (by rw [ht]; exact List.mem_cons_self p _)⟩
  simp only [hie, Bool.false_eq_true, if_false]
  rw [ht]
  simp

/-- C6 witness: the Ranker contract instantiated at `{"a": 1, "b": 3}`. -/
theorem C6_ranker_order_witness :
    2 ≤ ([("a", 1), ("b", 3)] : ScoreMap).length ∧
    (get_primary_secondary [] = (none, none) ∧
     (∀ k v, get_primary_secondary [(k, v)] = (some k, none)) ∧
     ∃ (p s : String × Score) (rest : ScoreMap),
       get_primary_secondary [("a", 1), ("b", 3)] = (some p.1, some s.1) ∧
       ([("a", 1), ("b", 3)] : ScoreMap).Perm (p :: s :: rest) ∧
       s.2 ≤ p.2 ∧ ∀ q ∈ rest, q.2 ≤ s.2) :=
  ⟨by decide, C6_ranker_order [("a", 1), ("b", 3)] (by decide)⟩

/-- C7: Environment Inference computes the four weighted sums of the spec
(structure = logical*0.7 + organization*0.3, social = social*0.6 +
collaboration*0.4, pace = independence*0.5 + adaptability*0.5, feedback =
(10 - confidence)*0.7 + risk_taking*0.3 with an absent confidence term
contributing 0), maps a score to a label by the thresholds `>7`, `>5`,
else, and on a confidence score of 2 with risk_taking 5 yields feedback
score 7.1 and the label "Frequent, immediate feedback". -/
theorem C7_environment_rules :
    (∀ ls bp, structure_score ls bp =
      lookup0 ls "logical" * (7/10) + lookup0 bp "organization" * (3/10)) ∧
    (∀ ls bp, social_score ls bp =
      lookup0 ls "social" * (6/10) + lookup0 bp "collaboration" * (4/10)) ∧
    (∀ bp, pace_score bp =
      lookup0 bp "independence" * (1/2) + lookup0 bp "adaptability" * (1/2)) ∧
    (∀ bp, feedback_score bp =
      (if (bp.lookup "confidence").isSome
        then (10 - lookup0 bp "confidence") * (7/10) else 0) +
      lookup0 bp "risk_taking" * (3/10)) ∧
    (∀ (sc : ℚ) (hi mid lo : String),
      (7 < sc → threeWay sc hi mid lo = hi) ∧
      (sc ≤ 7 → 5 < sc → threeWay sc hi mid lo = mid) ∧
      (sc ≤ 5 → threeWay sc hi mid lo = lo)) ∧
    feedback_score [("confidence", 2), ("risk_taking", 5)] = 71/10 ∧
    (determine_ideal_environment [] [("confidence", 2), ("risk_taking", 5)]).lookup
      "feedback" = some "Frequent, immediate feedback" := by
  have hb1 : ("risk_taking" == "confidence") = false := by decide
  have hb2 : ("risk_taking" == "risk_taking") = true := by decide
  have hb3 : ("confidence" == "confidence") = true := by decide
  have hf : feedback_score [("confidence", 2), ("risk_taking", 5)] = 71/10 := by
    simp only [feedback_score, impactTerm, List.lookup, hb1, hb2, hb3]
    norm_num
  refine ⟨?_, ?_, ?_, ?_, ?_, hf, ?_⟩
  · intro ls bp
    rw [structure_score, impactTerm_eq, impactTerm_eq]
  · intro ls bp
    rw [social_score, impactTerm_eq, impactTerm_eq]
  · intro bp
    rw [pace_score, impactTerm_eq, impactTerm_eq]
  · intro bp
    rw [feedback_score, impactTerm_eq]
    cases h : bp.lookup "confidence" <;> simp [h, lookup0]
  · intro sc hi mid lo
    refine ⟨fun h => ?_, fun h7 h5 => ?_, fun h => ?_⟩
    · rw [threeWay, if_pos h]
    · rw [threeWay, if_neg (by linarith), if_pos h5]
    · rw [threeWay, if_neg (by linarith), if_neg (by linarith)]
  · have hc1 : ("feedback" == "structure") = false := by decide
    have hc2 : ("feedback" == "social") = false := by decide
    have hc3 : ("feedback" == "pace") = false := by decide
    have hc4 : ("feedback" == "feedback") = true := by decide
    simp only [determine_ideal_environment, List.lookup, hc1, hc2, hc3, hc4]
    rw [hf]
    norm_num [threeWay]

/-- C7 witness: the threshold rule instantiated at score 8, which exceeds 7
and selects the first label. -/
theorem C7_environment_rules_witness :
    7 < (8:ℚ) ∧ threeWay 8 "hi" "mid" "lo" = "hi" :=
  ⟨by decide, (C7_environment_rules.2.2.2.2.1 8 "hi" "mid" "lo").1 (by decide)⟩

/-- C8: Scenario A — on a completed assessment with exactly one response
whose selected option has `learning_style_impact = {"visual": 8,
"auditory": 2}` and empty other impact mappings, `analyze_assessment`
returns a success profile with learning-style scores
`{"visual": 10.0, "auditory": 2.5}`, primary "visual", secondary
"auditory". -/
theorem C8_scenarioA :
    resultLearningStyles (analyze_assessment scenarioA_db 1) =
      some ⟨[("visual", 10), ("auditory", 5/2)], some "visual", some "auditory"⟩ := by
  have hagg : aggregate
      [⟨1, some ⟨[("visual", 8), ("auditory", 2)], [], [], []⟩⟩]
      QuestionOption.learning_style_impact = [("visual", 8), ("auditory", 2)] := by
    simp [aggregate, addImpacts, addScore]
  have hnorm : normalize_scores [("visual", 8), ("auditory", 2)] =
      [("visual", 10), ("auditory", 5/2)] := by
    simp [normalize_scores, listMax, roundTo1, roundHalfEven]
    norm_num
  have hsort : sortDesc [("visual", (10:ℚ)), ("auditory", 5/2)] =
      [("visual", 10), ("auditory", 5/2)] := by
    rw [sortDesc, mergeSort_pair]
    norm_num
  have hps : get_primary_secondary [("visual", (10:ℚ)), ("auditory", 5/2)] =
      (some "visual", some "auditory") := by
    rw [get_primary_secondary]
    simp [hsort]
  simp only [analyze_assessment, scenarioA_db, analyzeDimension]
  simp only [List.find?, List.filter]
  norm_num [hagg, hnorm, hps, resultLearningStyles]

/-- C9: normalization never adds, drops, or renames a trait — the output
mapping has exactly the input's keys, in order, in all three branches. -/
theorem C9_normalizer_keys (m : ScoreMap) :
    (normalize_scores m).map Prod.fst = m.map Prod.fst := by
  rw [normalize_scores]
  by_cases h : m.isEmpty = true
  · have he : m = [] := List.isEmpty_iff.mp h
    subst he
    simp
  · simp only [h, if_false, Bool.false_eq_true]
    split
    · rfl
    · simp

/-- C10: Environment Inference always returns exactly the four keys
structure, social, pace, feedback, each bound to one of its three fixed
labels, and on two empty input mappings all four sums are 0 and the result
is exactly the four else-branch labels. -/
theorem C10_environment_shape :
    (∀ ls bp, (determine_ideal_environment ls bp).map Prod.fst =
      ["structure", "social", "pace", "feedback"]) ∧
    (∀ ls bp, ∃ a b c d,
      determine_ideal_environment ls bp =
        [("structure", a), ("social", b), ("pace", c), ("feedback", d)] ∧
      a ∈ ["Highly structured", "Moderately structured", "Flexible and unstructured"] ∧
      b ∈ ["Collaborative group settings", "Balance of group and independent work",
           "Independent study"] ∧
      c ∈ ["Self-paced learning", "Flexible deadlines with guidance",
           "Structured schedule with clear deadlines"] ∧
      d ∈ ["Frequent, immediate feedback", "Regular check-ins with constructive feedback",
           "Space for self-reflection with periodic guidance"]) ∧
    determine_ideal_environment [] [] =
      [("structure", "Flexible and unstructured"), ("social", "Independent study"),
       ("pace", "Structured schedule with clear deadlines"),
       ("feedback", "Space for self-reflection with periodic guidance")] := by
  refine ⟨fun ls bp => rfl, fun ls bp => ?_, ?_⟩
  · exact ⟨_, _, _, _, rfl, threeWay_mem _ _ _ _, threeWay_mem _ _ _ _,
      threeWay_mem _ _ _ _, threeWay_mem _ _ _ _⟩
  · norm_num [determine_ideal_environment, structure_score, social_score,
      pace_score, feedback_score, impactTerm, threeWay, List.lookup]

end Lifepath
